import Mathlib

/-! Shallow embedding of the timer tools in this repository (the
crop-timers, sub-returns and map-allowances binaries), together with
theorems relating their behaviour to the specification.

Instants are modelled as `Int` seconds since the Unix epoch: `DateTime<Utc>`
values compare and subtract exactly as their second counts do, and every
`chrono` duration constructed by the source (`days`, `hours`, `weeks`) is a
whole number of seconds.  `Utc::now()` is modelled by passing the sampled
instant as an explicit argument; where the source samples the clock more
than once within one unit of work, the embedding takes one parameter per
sample site (see `two_sample_display`). -/

namespace FfxivTimers

/-- Seconds in the given number of hours (chrono `Duration::hours`). -/
def hours (n : Int) : Int := n * 3600

/-- Seconds in the given number of days (chrono `Duration::days`). -/
def days (n : Int) : Int := n * 86400

/-- Seconds in the given number of weeks (chrono `Duration::weeks`). -/
def weeks (n : Int) : Int := n * 604800

/-- crop-timers `crop_name`: display label per crop id.  The Rust `match`
with a `_` arm is a total function; it is embedded as an if-chain over the
same numeric literals. -/
def crop_name (id : Nat) : String :=
  if id = 4842 then "Almond"
  else if id = 6146 then "Mirror Apple"
  else if id = 7604 then "Royal Kukuru"
  else if id = 7895 then "Sylkis Bud"
  else if id = 8165 then "Krakka Root"
  else if id = 12896 then "Old World Fig"
  else "(Unknown Crop)"

/-- crop-timers `crop_grow_time`: seconds from planting to completion. -/
def crop_grow_time (id : Nat) : Int :=
  if id = 4842 then days 5
  else if id = 6146 then days 5
  else if id = 7604 then days 6
  else if id = 7895 then days 5
  else if id = 8165 then days 3
  else if id = 12896 then days 5
  else 0

/-- crop-timers `crop_wilt_time`: seconds from last tending to wilting. -/
def crop_wilt_time (id : Nat) : Int :=
  if id = 4842 then hours 48
  else if id = 6146 then hours 48
  else if id = 7604 then hours 36
  else if id = 7895 then hours 48
  else if id = 8165 then hours 24
  else if id = 12896 then hours 48
  else 0

/-- crop-timers `crop_wither_time`: wilt time plus one day of grace. -/
def crop_wither_time (id : Nat) : Int :=
  crop_wilt_time id + days 1

/-- crop-timers `HouseInfo` (deserialized; carried through grouping but
never used by status or deadline computation). -/
structure HouseInfo where
  zone : Nat
  server_id : Nat
  ward : Nat
  plot : Nat
deriving DecidableEq

/-- crop-timers `CropInfo`.  The two timestamps are deserialized through
`datetime_or_default`, so a missing or unparsable string becomes the epoch
default `0`. -/
structure CropInfo where
  plant_time : Int
  last_tending : Int
  plant_id : Nat
  accurate_plant_time : Bool
deriving DecidableEq

/-- crop-timers `CropStatus`, constructors listed in the source's
declaration order, which is what Rust's derived `Ord` totally orders. -/
inductive CropStatus
  | good
  | okay
  | wilt
  | done
  | dead
deriving DecidableEq, Fintype

/-- Rust's derived `Ord` on a fieldless enum compares declaration order;
the rank records that order explicitly. -/
def CropStatus.rank : CropStatus → Nat
  | .good => 0
  | .okay => 1
  | .wilt => 2
  | .done => 3
  | .dead => 4

instance : LinearOrder CropStatus :=
  LinearOrder.lift' CropStatus.rank (by decide)

/-- crop-timers `crop_status`.  In the source `now` is `Utc::now()`
sampled inside the function at each call; here the sampled instant is an
explicit argument. -/
def crop_status (now : Int) (crop : CropInfo) : CropStatus :=
  let wilt_time := crop.last_tending + crop_wilt_time crop.plant_id
  let wither_time := crop.last_tending + crop_wither_time crop.plant_id
  let finish_time := crop.plant_time + crop_grow_time crop.plant_id
  if wither_time < finish_time ∧ wither_time < now then .dead
  else if finish_time < now then .done
  else if finish_time < wither_time then .good
  else if wilt_time < now then .wilt
  else .okay

/-- crop-timers `main`, per-group reduction: `patches.iter().map(crop_status)
.max().unwrap_or(CropStatus::Okay)`. -/
def overall_status (now : Int) (patches : List (HouseInfo × CropInfo)) : CropStatus :=
  ((patches.map fun p => crop_status now p.2).max?).getD .okay

/-- crop-timers `main`, per-group deadline selection (`stage_time`): a
status-directed minimum over the members' relevant deadlines, absent for
the two terminal statuses. -/
def stage_time (now : Int) (patches : List (HouseInfo × CropInfo)) : Option Int :=
  match overall_status now patches with
  | .dead => none
  | .done => none
  | .okay => (patches.map fun p => p.2.last_tending + crop_wilt_time p.2.plant_id).min?
  | .wilt => (patches.map fun p => p.2.last_tending + crop_wither_time p.2.plant_id).min?
  | .good => (patches.map fun p => p.2.plant_time + crop_grow_time p.2.plant_id).min?

/-- Rust `format!("{:02}", n)` on an `i64`: zero-pad to width two.  Only
single nonnegative digits gain a leading zero; any other value (negative,
or two or more digits) already meets the width. -/
def pad02 (n : Int) : String :=
  if 0 ≤ n ∧ n < 10 then "0" ++ toString n else toString n

/-- The `"{:02}:{:02}:{:02}"` countdown used by all three binaries:
`num_hours`, `num_minutes % 60`, `num_seconds % 60` of a chrono duration.
chrono's accessors are truncating (toward-zero) divisions of the total
seconds, and Rust's `%` keeps the dividend's sign, hence `tdiv`/`tmod`. -/
def format_dur (dur : Int) : String :=
  pad02 (Int.tdiv dur 3600) ++ ":" ++ pad02 (Int.tmod (Int.tdiv dur 60) 60) ++ ":" ++
    pad02 (Int.tmod dur 60)

/-- crop-timers `main`: `stage_time.map(|t| t - now).map(format).
unwrap_or_default()` — the absent deadline renders as the empty string. -/
def crop_time_display (stage : Option Int) (now : Int) : String :=
  ((stage.map fun t => format_dur (t - now)).getD "")

/-- The displayed countdown for one group when a single instant is used
both to classify and to render. -/
def time_display (now : Int) (patches : List (HouseInfo × CropInfo)) : String :=
  crop_time_display (stage_time now patches) now

/-- The displayed countdown as the source actually computes it: the
statuses (and hence the selected deadline) use the instants sampled inside
`crop_status` (approximated by one classification instant `t1`), while the
countdown subtracts a later sample `t2` taken just before printing. -/
def two_sample_display (t1 t2 : Int) (patches : List (HouseInfo × CropInfo)) : String :=
  crop_time_display (stage_time t1 patches) t2

/-- One step of `entries_by_crop.entry(k).or_default().push(r)`: append to
the existing key's vector, or start a new key.  (The BTreeMap's key
ordering only affects print order and is abstracted away.) -/
def upsert (m : List (Nat × List (HouseInfo × CropInfo))) (k : Nat)
    (r : HouseInfo × CropInfo) : List (Nat × List (HouseInfo × CropInfo)) :=
  match m with
  | [] => [(k, [r])]
  | (k2, v) :: rest =>
    if k2 = k then (k2, v ++ [r]) :: rest else (k2, v) :: upsert rest k r

/-- crop-timers `main`, body of the per-crop loop: crops with
`plant_id == 0` are skipped (`continue`) before grouping. -/
def add_record (m : List (Nat × List (HouseInfo × CropInfo)))
    (r : HouseInfo × CropInfo) : List (Nat × List (HouseInfo × CropInfo)) :=
  if r.2.plant_id = 0 then m else upsert m r.2.plant_id r

/-- crop-timers `main`: the grouping of the full record stream (all files'
crops, flattened in processing order, each paired with its file's
`HouseInfo`). -/
def entries_by_crop (records : List (HouseInfo × CropInfo)) :
    List (Nat × List (HouseInfo × CropInfo)) :=
  records.foldl add_record []

/-- sub-returns `main`, per-submarine display line: the sentinel default
`DateTime::<Utc>::default()` (the epoch, `0`) shows as `Unassigned`; an
elapsed return time shows as `Voyage complete`; a future one as the
`HH:MM:SS` countdown. -/
def sub_time_display (now : Int) (return_time : Int) : String :=
  if return_time = 0 then "Unassigned"
  else if return_time ≤ now then "Voyage complete"
  else format_dur (return_time - now)

/-- map-allowances `server_name`: total lookup with a fallback label. -/
def server_name (id : Int) : String :=
  if id = 72 then "Tonberry"
  else if id = 91 then "Balmung"
  else "(Unknown Server)"

/-- The `datetime_or_default` deserializer of crop-timers and
map-allowances: `DateTime::from_str(value).unwrap_or_default()`.  The
parse result is abstracted as an `Option`; a failed parse yields the epoch
default `0`. -/
def datetime_or_default (parsed : Option Int) : Int :=
  parsed.getD 0

/-- map-allowances task record: character name, server id, and the `map`
allowance timestamp (deserialized through `datetime_or_default`). -/
structure TaskEntry where
  name : String
  server_id : Int
  map : Int
deriving DecidableEq

/-- map-allowances `main`: `entries.retain(|e| e.map > now - weeks(1))`.
Every retained entry is then printed, one line each, so this list is
exactly the displayed set. -/
def retain_recent (now : Int) (entries : List TaskEntry) : List TaskEntry :=
  entries.filter fun e => decide (now - weeks 1 < e.map)

/-- The decision sequence of section 4.2 of the specification, written
over the three derived deadlines exactly as the spec words it (branch 1:
decay outran completion; 2: completed; 3: completion wins the race; 4:
decay has begun; 5: nothing yet). -/
def classify_spec (now decay_start decay_end completion : Int) : CropStatus :=
  if decay_end < completion ∧ decay_end < now then .dead
  else if completion < now then .done
  else if completion < decay_end then .good
  else if decay_start < now then .wilt
  else .okay

/-- The deadline-selection rule of section 4.3 of the specification: for
an `okay` group the minimum is taken over the members currently at `okay`
or below in the severity order. -/
def stage_time_spec (now : Int) (patches : List (HouseInfo × CropInfo)) : Option Int :=
  match overall_status now patches with
  | .dead => none
  | .done => none
  | .okay =>
    ((patches.filter fun p => decide (crop_status now p.2 ≤ CropStatus.okay)).map
      fun p => p.2.last_tending + crop_wilt_time p.2.plant_id).min?
  | .wilt => (patches.map fun p => p.2.last_tending + crop_wither_time p.2.plant_id).min?
  | .good => (patches.map fun p => p.2.plant_time + crop_grow_time p.2.plant_id).min?

/-- A house record; its fields never enter status or deadline logic. -/
def house0 : HouseInfo := ⟨0, 0, 0, 0⟩

/-- A Krakka Root record whose two timestamps are the epoch sentinel `0`,
exactly what `datetime_or_default` produces for a missing or unparsable
timestamp string.  Its deadlines are wilt 86400, wither 172800 and finish
259200 seconds after the epoch. -/
def cropEpoch : CropInfo := ⟨0, 0, 8165, false⟩

/-- A Krakka Root planted long before its last tending: finish 86400,
wilt 86400, wither 172800.  At instant 0 its deadline-versus-now
comparisons agree with `cropEpoch` (all in the future) but its completion
precedes its wither deadline. -/
def cropRace : CropInfo := ⟨-172800, 0, 8165, false⟩

/-- A Krakka Root with finish 159200, wilt 86400, wither 172800: at
instant 200000 its wither deadline has passed just as `cropEpoch`'s has,
but completion precedes the wither deadline. -/
def cropEarly : CropInfo := ⟨-100000, 0, 8165, false⟩

/-- A healthy Krakka Root relative to instant 1700000000: planted 100
seconds ago, tended just now (wilt at 1700086400, wither at 1700172800,
finish at 1700259100). -/
def cropH : CropInfo := ⟨1699999900, 1700000000, 8165, true⟩

/-- A map-allowance record carrying the epoch sentinel timestamp. -/
def entryOld : TaskEntry := ⟨"Alda", 72, 0⟩

/-- A map-allowance record with a recent timestamp. -/
def entryNew : TaskEntry := ⟨"Bryn", 91, 999999⟩

/-- The initial accumulator of a left fold of `max` is a lower bound of
the fold's result. -/
theorem foldl_max_le_init {α : Type} [LinearOrder α] (a : α) (l : List α) :
    a ≤ l.foldl max a := by
  induction l generalizing a with
  | nil => exact le_rfl
  | cons x xs ih =>
    simp only [List.foldl_cons]
    exact le_trans (le_max_left a x) (ih (max a x))

/-- Every element of the list is a lower bound of a left fold of `max`. -/
theorem le_foldl_max {α : Type} [LinearOrder α] (a b : α) (l : List α) (h : b ∈ l) :
    b ≤ l.foldl max a := by
  induction l generalizing a with
  | nil => cases h
  | cons x xs ih =>
    simp only [List.foldl_cons]
    rcases List.mem_cons.mp h with rfl | h2
    · exact le_trans (le_max_right a b) (foldl_max_le_init _ _)
    · exact ih _ h2

/-- A left fold of `max` is monotone in its initial accumulator. -/
theorem foldl_max_mono {α : Type} [LinearOrder α] {a b : α} (h : a ≤ b) (l : List α) :
    l.foldl max a ≤ l.foldl max b := by
  induction l generalizing a b with
  | nil => exact h
  | cons x xs ih =>
    simp only [List.foldl_cons]
    exact ih (max_le_max h le_rfl)

/-- A left fold of `max` is attained: it is the initial accumulator or a
list element. -/
theorem foldl_max_mem {α : Type} [LinearOrder α] (a : α) (l : List α) :
    l.foldl max a = a ∨ l.foldl max a ∈ l := by
  induction l generalizing a with
  | nil => exact Or.inl rfl
  | cons x xs ih =>
    simp only [List.foldl_cons]
    rcases ih (max a x) with h | h
    · rcases max_choice a x with h2 | h2
      · exact Or.inl (by rw [h, h2])
      · exact Or.inr (List.mem_cons.mpr (Or.inl (by rw [h, h2])))
    · exact Or.inr (List.mem_cons.mpr (Or.inr h))

/-- On a nonempty group the `max().unwrap_or(Okay)` reduction of the
source is the plain fold of `max` over the member statuses. -/
theorem overall_status_cons (now : Int) (p : HouseInfo × CropInfo)
    (ps : List (HouseInfo × CropInfo)) :
    overall_status now (p :: ps) =
      (ps.map fun q => crop_status now q.2).foldl max (crop_status now p.2) := rfl

/-- No member of a group classifies above the group's overall status. -/
theorem member_le_overall (now : Int) (patches : List (HouseInfo × CropInfo))
    (p : HouseInfo × CropInfo) (hp : p ∈ patches) :
    crop_status now p.2 ≤ overall_status now patches := by
  cases patches with
  | nil => cases hp
  | cons q qs =>
    rw [overall_status_cons]
    rcases List.mem_cons.mp hp with rfl | h2
    · exact foldl_max_le_init _ _
    · exact le_foldl_max _ _ _ (List.mem_map_of_mem _ h2)

/-- C1: the classifier follows the spec's five-branch decision sequence
over the three derived deadlines decay_start = last_tending + wilt_delay,
decay_end = decay_start + one day of grace, completion = plant_time +
grow_duration, and the deadline-versus-deadline comparisons of branches 1
and 3 decide the result: `cropEpoch` and `cropRace` at instant 0 have
identical deadline-versus-now comparisons (all three deadlines in the
future) yet classify `okay` versus `good` purely by the completion-versus-
decay_end order, and `cropEpoch` and `cropEarly` at instant 200000 both
have an elapsed decay_end yet classify `dead` versus `done` purely by the
decay_end-versus-completion order. -/
theorem C1_classifier_decision_sequence :
    (∀ (now : Int) (crop : CropInfo),
      crop_status now crop =
        classify_spec now
          (crop.last_tending + crop_wilt_time crop.plant_id)
          (crop.last_tending + crop_wilt_time crop.plant_id + days 1)
          (crop.plant_time + crop_grow_time crop.plant_id)) ∧
    crop_status 0 cropEpoch = CropStatus.okay ∧
    crop_status 0 cropRace = CropStatus.good ∧
    crop_status 200000 cropEpoch = CropStatus.dead ∧
    crop_status 200000 cropEarly = CropStatus.done := by
  refine ⟨?_, by decide, by decide, by decide, by decide⟩
  intro now crop
  simp only [crop_status, classify_spec, crop_wither_time, ← add_assoc]

/-- C2 counterexample: in the code's derived order `Okay` is not below
`Good`; the derived `Ord` follows declaration order, where `Good` is the
least severe status. -/
theorem C2_counterexample_order :
    ¬ CropStatus.okay < CropStatus.good ∧ CropStatus.good < CropStatus.okay := by
  decide

/-- C2 (amended): the status enumeration is totally ordered by severity
exactly as Good < Okay < Wilt < Done < Dead — the rank of the declaration
order — and this is the order under which the group reduction takes its
maximum; in particular Good, not Okay, is the strictly lowest severity of
the two. -/
theorem C2_amended_severity_order :
    (CropStatus.good < CropStatus.okay ∧ CropStatus.okay < CropStatus.wilt ∧
      CropStatus.wilt < CropStatus.done ∧ CropStatus.done < CropStatus.dead) ∧
    (∀ a b : CropStatus, a ≤ b ↔ CropStatus.rank a ≤ CropStatus.rank b) ∧
    (∀ (now : Int) (p : HouseInfo × CropInfo) (ps : List (HouseInfo × CropInfo)),
      overall_status now (p :: ps) =
        (ps.map fun q => crop_status now q.2).foldl max (crop_status now p.2)) :=
  ⟨by decide, fun _ _ => Iff.rfl, fun _ _ _ => rfl⟩

/-- C3: the aggregated deadline is selected by the group's overall status
— absent for the two terminal statuses, the earliest wilt deadline for an
`okay` group (equivalently, over the members at `okay` or below: when the
overall status is `okay` every member is), the earliest wither deadline
for a `wilt` group and the earliest completion for a `good` group — and it
is a minimum in every case. -/
theorem C3_status_directed_minimum (now : Int) (patches : List (HouseInfo × CropInfo)) :
    stage_time now patches = stage_time_spec now patches := by
  have hfil : overall_status now patches = CropStatus.okay →
      (patches.filter fun p => decide (crop_status now p.2 ≤ CropStatus.okay)) = patches := by
    intro hok
    apply List.filter_eq_self.mpr
    intro p hp
    rw [decide_eq_true_eq]
    exact hok ▸ member_le_overall now patches p hp
  unfold stage_time stage_time_spec
  cases hov : overall_status now patches with
  | okay => rw [hfil hov]
  | dead => rfl
  | done => rfl
  | wilt => rfl
  | good => rfl

/-- C4: on a nonempty group the overall status is the maximum of the
member classifications under the severity order — it is attained by some
member and bounds every member from above — and prepending a further
member never lowers it. -/
theorem C4_overall_is_member_max (now : Int) (patches : List (HouseInfo × CropInfo))
    (h : patches ≠ []) :
    (∃ p ∈ patches, overall_status now patches = crop_status now p.2) ∧
    (∀ p ∈ patches, crop_status now p.2 ≤ overall_status now patches) ∧
    (∀ q : HouseInfo × CropInfo,
      overall_status now patches ≤ overall_status now (q :: patches)) := by
  match patches, h with
  | p0 :: ps, _ =>
    refine ⟨?_, fun p hp => member_le_overall now _ p hp, fun q => ?_⟩
    · rw [overall_status_cons]
      rcases foldl_max_mem (crop_status now p0.2) (ps.map fun q => crop_status now q.2)
        with h1 | h1
      · exact ⟨p0, List.mem_cons_self _ _, h1⟩
      · obtain ⟨p, hp, hval⟩ := List.mem_map.mp h1
        exact ⟨p, List.mem_cons_of_mem _ hp, hval.symm⟩
    · rw [overall_status_cons, overall_status_cons]
      simp only [List.map_cons, List.foldl_cons]
      exact foldl_max_mono (le_max_right _ _) _

/-- C4 witness: the theorem applied to the singleton group holding the
healthy crop at instant 1700000000. -/
theorem C4_witness :
    ([((house0 : HouseInfo), cropH)] ≠ ([] : List (HouseInfo × CropInfo))) ∧
    crop_status 1700000000 cropH ≤ overall_status 1700000000 [(house0, cropH)] :=
  ⟨by decide,
   (C4_overall_is_member_max 1700000000 [(house0, cropH)] (by decide)).2.1
     (house0, cropH) (by decide)⟩

/-- C5 (code evaluation at the failing input): a crop record whose
reference timestamps are the epoch sentinel `0` is not given a dedicated
Unassigned state — `CropStatus` has no such constructor — but is pushed
through the ordinary deadline arithmetic, where the sentinel deadlines are
long past and the record classifies `dead`; placed next to a healthy crop
it drags the group's overall status to `dead` and its deadline from a
value to absent, so it does influence the group's deadline.  Only the
submarine tool implements the dedicated Unassigned display state the
specification asks for. -/
theorem C5_sentinel_enters_deadline_math :
    crop_status 1700000000 cropEpoch = CropStatus.dead ∧
    overall_status 1700000000 [(house0, cropEpoch), (house0, cropH)] = CropStatus.dead ∧
    stage_time 1700000000 [(house0, cropEpoch), (house0, cropH)] = none ∧
    stage_time 1700000000 [(house0, cropH)] = some 1700086400 ∧
    sub_time_display 1700000000 0 = "Unassigned" := by
  decide

/-- C6 counterexample: the crop tool's formatter, given a deadline 300
seconds before the instant `now = 1000`, renders the negative countdown
"00:-5:00" instead of an already-elapsed indicator. -/
theorem C6_counterexample_negative_countdown :
    crop_time_display (some 700) 1000 = "00:-5:00" := by
  decide

/-- C6 (amended): an absent deadline renders as the empty string, and a
present one always renders as the `HH:MM:SS` of `deadline - now` with
truncating division and sign-of-dividend remainders — `HH` unbounded
(25h 3m 9s shows as "25:03:09") and `MM`, `SS` wrapped to 0–59 whenever
the remaining time is nonnegative, but with zero or negative components
when the deadline has already passed, since the crop tool has no elapsed
indicator.  The submarine tool does render the elapsed indicator "Voyage
complete" for a non-sentinel return time at or before `now`, and the same
`HH:MM:SS` countdown for a future one. -/
theorem C6_amended_formatter :
    (∀ now : Int, crop_time_display none now = "") ∧
    (∀ t now : Int, crop_time_display (some t) now = format_dur (t - now)) ∧
    (∀ now : Int, crop_time_display (some (now + 90189)) now = "25:03:09") ∧
    (∀ d : Int, 0 ≤ d →
      0 ≤ Int.tmod (Int.tdiv d 60) 60 ∧ Int.tmod (Int.tdiv d 60) 60 < 60 ∧
      0 ≤ Int.tmod d 60 ∧ Int.tmod d 60 < 60) ∧
    (∀ now rt : Int, rt ≠ 0 → rt ≤ now → sub_time_display now rt = "Voyage complete") ∧
    (∀ now rt : Int, rt ≠ 0 → now < rt → sub_time_display now rt = format_dur (rt - now)) := by
  refine ⟨fun _ => rfl, fun _ _ => rfl, fun now => ?_, fun d hd => ?_, fun now rt h1 h2 => ?_,
    fun now rt h1 h2 => ?_⟩
  · have h : now + 90189 - now = 90189 := by ring
    show format_dur (now + 90189 - now) = "25:03:09"
    rw [h]
    decide
  · exact ⟨Int.tmod_nonneg _ (Int.tdiv_nonneg hd (by decide)),
      Int.tmod_lt_of_pos _ (by decide),
      Int.tmod_nonneg _ hd, Int.tmod_lt_of_pos _ (by decide)⟩
  · unfold sub_time_display
    rw [if_neg h1, if_pos h2]
  · unfold sub_time_display
    rw [if_neg h1, if_neg (not_le.mpr h2)]

/-- C6 witness: the amended formatter facts instantiated at concrete
inputs — a duration of 3661 seconds, an elapsed submarine return time and
a future one. -/
theorem C6_witness :
    ((0:Int) ≤ 3661 ∧
      (0 ≤ Int.tmod (Int.tdiv (3661:Int) 60) 60 ∧ Int.tmod (Int.tdiv (3661:Int) 60) 60 < 60 ∧
        0 ≤ Int.tmod (3661:Int) 60 ∧ Int.tmod (3661:Int) 60 < 60)) ∧
    sub_time_display 100 50 = "Voyage complete" ∧
    sub_time_display 0 3661 = format_dur (3661 - 0) :=
  ⟨⟨by decide, C6_amended_formatter.2.2.2.1 3661 (by decide)⟩,
   C6_amended_formatter.2.2.2.2.1 100 50 (by decide) (by decide),
   C6_amended_formatter.2.2.2.2.2 0 3661 (by decide) (by decide)⟩

/-- C7: the catalog lookups are total over all identifiers, and every
identifier outside the table yields the zero-duration profile and a label
beginning "(Unknown" — likewise for the map tool's server-name lookup. -/
theorem C7_catalog_total_with_fallback (id : Nat) (sid : Int)
    (h : id ≠ 4842 ∧ id ≠ 6146 ∧ id ≠ 7604 ∧ id ≠ 7895 ∧ id ≠ 8165 ∧ id ≠ 12896)
    (hs : sid ≠ 72 ∧ sid ≠ 91) :
    crop_name id = "(Unknown Crop)" ∧ crop_grow_time id = 0 ∧ crop_wilt_time id = 0 ∧
    "(Unknown".data <+: (crop_name id).data ∧ server_name sid = "(Unknown Server)" := by
  obtain ⟨h1, h2, h3, h4, h5, h6⟩ := h
  obtain ⟨hs1, hs2⟩ := hs
  have hn : crop_name id = "(Unknown Crop)" := by
    simp [crop_name, h1, h2, h3, h4, h5, h6]
  refine ⟨hn, ?_, ?_, ?_, ?_⟩
  · simp [crop_grow_time, h1, h2, h3, h4, h5, h6]
  · simp [crop_wilt_time, h1, h2, h3, h4, h5, h6]
  · rw [hn]; decide
  · simp [server_name, hs1, hs2]

/-- C7 witness: the lookup fallbacks at the unknown crop id 1 and the
unknown server id 0. -/
theorem C7_witness :
    crop_name 1 = "(Unknown Crop)" ∧ crop_grow_time 1 = 0 ∧ crop_wilt_time 1 = 0 ∧
    "(Unknown".data <+: (crop_name 1).data ∧ server_name 0 = "(Unknown Server)" :=
  C7_catalog_total_with_fallback 1 0 (by decide) (by decide)

/-- C8 (code evaluation at the failing input): the source samples
`Utc::now()` inside `crop_status` for each record and again in `main`
just before rendering, and the claimed single consistent instant does not
exist.  For the singleton group holding `cropEpoch`, classifying at the
sample 86300 gives `okay` with the wilt deadline 86400, yet rendering
against the later sample 86460 displays the negative countdown
"00:-1:00"; under any single instant `t` this pair is impossible, because
a status of `okay` forces `t ≤ 86400` (conjunct four), so the one-sample
display is the countdown of the nonnegative remainder `86400 - t`
(conjunct five). -/
theorem C8_resample_between_classify_and_render :
    overall_status 86300 [(house0, cropEpoch)] = CropStatus.okay ∧
    stage_time 86300 [(house0, cropEpoch)] = some 86400 ∧
    two_sample_display 86300 86460 [(house0, cropEpoch)] = "00:-1:00" ∧
    (∀ t : Int, 86400 < t → overall_status t [(house0, cropEpoch)] ≠ CropStatus.okay) ∧
    (∀ t : Int, overall_status t [(house0, cropEpoch)] = CropStatus.okay →
      time_display t [(house0, cropEpoch)] = format_dur (86400 - t)) := by
  refine ⟨by decide, by decide, by decide, fun t ht => ?_, fun t hov => ?_⟩
  · rw [overall_status_cons]
    simp only [List.map_nil, List.foldl_nil]
    simp only [crop_status]
    norm_num [cropEpoch, crop_wilt_time, crop_wither_time, crop_grow_time, hours, days]
    split_ifs <;> decide
  · have hst : stage_time t [(house0, cropEpoch)] = some 86400 := by
      unfold stage_time
      rw [hov]
      decide
    unfold time_display
    rw [hst]
    rfl

/-- C8 witness: the quantified conjuncts applied at the concrete instants
100000 (past the wilt deadline, so not `okay`) and 0 (at which the single
instant is used for both the `okay` classification and the countdown). -/
theorem C8_witness :
    ((86400:Int) < 100000 ∧
      overall_status 100000 [(house0, cropEpoch)] ≠ CropStatus.okay) ∧
    (overall_status 0 [(house0, cropEpoch)] = CropStatus.okay ∧
      time_display 0 [(house0, cropEpoch)] = format_dur (86400 - 0)) :=
  ⟨⟨by decide, C8_resample_between_classify_and_render.2.2.2.1 100000 (by decide)⟩,
   ⟨by decide, C8_resample_between_classify_and_render.2.2.2.2 0 (by decide)⟩⟩

/-- Inserting a record with key `k` into an association map all of whose
entries have nonzero keys matching their members preserves that shape,
provided `k` is nonzero and is the record's own plant id. -/
theorem upsert_keeps_invariant (k : Nat) (r : HouseInfo × CropInfo)
    (hk : k ≠ 0) (hr : r.2.plant_id = k) :
    ∀ m : List (Nat × List (HouseInfo × CropInfo)),
      (∀ kv ∈ m, kv.1 ≠ 0 ∧ ∀ x ∈ kv.2, x.2.plant_id = kv.1) →
      ∀ kv ∈ upsert m k r, kv.1 ≠ 0 ∧ ∀ x ∈ kv.2, x.2.plant_id = kv.1 := by
  intro m
  induction m with
  | nil =>
    intro _ kv hkv
    simp only [upsert, List.mem_singleton] at hkv
    subst hkv
    refine ⟨hk, fun x hx => ?_⟩
    rw [List.mem_singleton] at hx
    subst hx
    exact hr
  | cons hd tl ih =>
    intro hm kv hkv
    obtain ⟨k2, v⟩ := hd
    simp only [upsert] at hkv
    by_cases hkk : k2 = k
    · rw [if_pos hkk] at hkv
      rcases List.mem_cons.mp hkv with rfl | htl
      · refine ⟨hkk ▸ hk, fun x hx => ?_⟩
        rcases List.mem_append.mp hx with hx1 | hx2
        · exact (hm (k2, v) (List.mem_cons_self _ _)).2 x hx1
        · rw [List.mem_singleton] at hx2
          subst hx2
          rw [hr, hkk]
      · exact hm kv (List.mem_cons_of_mem _ htl)
    · rw [if_neg hkk] at hkv
      rcases List.mem_cons.mp hkv with rfl | htl
      · exact hm (k2, v) (List.mem_cons_self _ _)
      · exact ih (fun kv2 h2 => hm kv2 (List.mem_cons_of_mem _ h2)) kv htl

/-- Folding the per-crop loop body over any record stream preserves the
grouping shape: nonzero keys whose members carry exactly that key. -/
theorem fold_add_record_invariant (records : List (HouseInfo × CropInfo)) :
    ∀ m, (∀ kv ∈ m, kv.1 ≠ 0 ∧ ∀ x ∈ kv.2, x.2.plant_id = kv.1) →
      ∀ kv ∈ records.foldl add_record m, kv.1 ≠ 0 ∧ ∀ x ∈ kv.2, x.2.plant_id = kv.1 := by
  induction records with
  | nil => intro m hm; simpa using hm
  | cons r rs ih =>
    intro m hm
    simp only [List.foldl_cons]
    apply ih
    unfold add_record
    by_cases h0 : r.2.plant_id = 0
    · rw [if_pos h0]; exact hm
    · rw [if_neg h0]; exact upsert_keeps_invariant _ r h0 rfl m hm

/-- Records whose plant id is zero are no-ops of the grouping fold, from
any accumulator. -/
theorem fold_add_record_skips_zero (records : List (HouseInfo × CropInfo)) :
    ∀ m, records.foldl add_record m =
      (records.filter fun r => decide (r.2.plant_id ≠ 0)).foldl add_record m := by
  induction records with
  | nil => intro _; rfl
  | cons r rs ih =>
    intro m
    by_cases h0 : r.2.plant_id = 0
    · have hf : List.filter (fun r => decide (r.2.plant_id ≠ 0)) (r :: rs) =
          List.filter (fun r => decide (r.2.plant_id ≠ 0)) rs := by
        simp [List.filter_cons, h0]
      have ha : add_record m r = m := by unfold add_record; rw [if_pos h0]
      rw [hf, List.foldl_cons, ha]
      exact ih m
    · have hf : List.filter (fun r => decide (r.2.plant_id ≠ 0)) (r :: rs) =
          r :: List.filter (fun r => decide (r.2.plant_id ≠ 0)) rs := by
        simp [List.filter_cons, h0]
      rw [hf, List.foldl_cons, List.foldl_cons]
      exact ih (add_record m r)

/-- C9: records with plant id zero are skipped before grouping — the
grouping of any record stream equals the grouping of the stream with the
zero-id records removed, no group with key 0 is ever created, and every
member of every group carries the group's nonzero key as its plant id. -/
theorem C9_zero_plant_id_excluded (records : List (HouseInfo × CropInfo)) :
    entries_by_crop records =
      entries_by_crop (records.filter fun r => decide (r.2.plant_id ≠ 0)) ∧
    ∀ k v, (k, v) ∈ entries_by_crop records →
      k ≠ 0 ∧ ∀ x ∈ v, x.2.plant_id = k ∧ x.2.plant_id ≠ 0 := by
  constructor
  · exact fold_add_record_skips_zero records []
  · intro k v hkv
    have hinv := fold_add_record_invariant records [] (by simp) (k, v) hkv
    exact ⟨hinv.1, fun x hx => ⟨hinv.2 x hx, by rw [hinv.2 x hx]; exact hinv.1⟩⟩

/-- C9 witness: a stream holding one zero-id record and one Krakka Root
groups into the single key 8165, whose member carries that key. -/
theorem C9_witness :
    entries_by_crop [(house0, (⟨0, 0, 0, false⟩ : CropInfo)), (house0, cropEpoch)] =
      entries_by_crop
        ([(house0, (⟨0, 0, 0, false⟩ : CropInfo)), (house0, cropEpoch)].filter
          fun r => decide (r.2.plant_id ≠ 0)) ∧
    (8165 ≠ 0 ∧ ∀ x ∈ [((house0 : HouseInfo), cropEpoch)],
      x.2.plant_id = 8165 ∧ x.2.plant_id ≠ 0) :=
  ⟨(C9_zero_plant_id_excluded [(house0, ⟨0, 0, 0, false⟩), (house0, cropEpoch)]).1,
   (C9_zero_plant_id_excluded [(house0, ⟨0, 0, 0, false⟩), (house0, cropEpoch)]).2
     8165 [(house0, cropEpoch)] (by decide)⟩

/-- C10: the map tool retains — and then displays, one line per retained
entry — exactly the entries whose map timestamp is strictly later than
one week before `now`; an entry exactly one week old or older is dropped,
the deserializer turns an unparsable timestamp string into the epoch
sentinel `0`, and whenever a week has elapsed since the epoch (true of
every real run) a sentinel-stamped entry is among the dropped. -/
theorem C10_week_window (now : Int) (entries : List TaskEntry) :
    (∀ e ∈ entries, now - weeks 1 < e.map → e ∈ retain_recent now entries) ∧
    (∀ e ∈ retain_recent now entries, e ∈ entries ∧ now - weeks 1 < e.map) ∧
    (∀ e ∈ entries, e.map ≤ now - weeks 1 → e ∉ retain_recent now entries) ∧
    datetime_or_default none = 0 ∧
    (weeks 1 ≤ now → ∀ e ∈ entries, e.map = 0 → e ∉ retain_recent now entries) := by
  refine ⟨fun e he hlt => ?_, fun e he => ?_, fun e _ hle hmem => ?_, rfl,
    fun hnow e _ h0 hmem => ?_⟩
  · exact List.mem_filter.mpr ⟨he, by simpa using hlt⟩
  · obtain ⟨h1, h2⟩ := List.mem_filter.mp he
    exact ⟨h1, by simpa using h2⟩
  · have h2 : now - weeks 1 < e.map := by simpa using (List.mem_filter.mp hmem).2
    exact absurd h2 (not_lt.mpr hle)
  · have h2 : now - weeks 1 < e.map := by simpa using (List.mem_filter.mp hmem).2
    rw [h0] at h2
    have : weeks 1 ≤ now := hnow
    linarith

/-- C10 witness: at `now = 1000000` the recent entry is retained and the
sentinel-stamped entry is dropped. -/
theorem C10_witness :
    entryNew ∈ retain_recent 1000000 [entryOld, entryNew] ∧
    entryOld ∉ retain_recent 1000000 [entryOld, entryNew] :=
  ⟨(C10_week_window 1000000 [entryOld, entryNew]).1 entryNew (by decide) (by decide),
   (C10_week_window 1000000 [entryOld, entryNew]).2.2.2.2 (by decide) entryOld
     (by decide) rfl⟩

end FfxivTimers
